import Mathlib

/-!
Shallow embedding of the pipeline staging and composition layer of the
`probs_runner` package (files `probs_runner/datasource.py` and
`probs_runner/runners.py`), together with proofs about the properties the
specification claims for it.

Python values are modelled as follows:
* byte strings (`bytes`) are `List Nat` of byte values;
* `hashlib.md5(...).hexdigest()` is implemented bit-for-bit (`md5hexdigest`);
* `pathlib.Path` values are represented by their (already normalised)
  POSIX string, and a `Path` argument that the code would `read_text()` is
  represented together with the text that the read would return;
* Python dictionaries are insertion-ordered association lists;
* functions that can `raise` return `Except String`.
-/

set_option maxRecDepth 100000

namespace ProbsRunner

/-- Truncate a natural number to 32 bits (Python int arithmetic mod `2 ** 32`). -/
def w32 (n : Nat) : Nat := n % 4294967296

/-- Rotate a 32-bit word left by `s` bits (`0 < s < 32`). -/
def rotl32 (x s : Nat) : Nat := (x % 2 ^ (32 - s)) * 2 ^ s + x / 2 ^ (32 - s)

/-- Bitwise complement of a 32-bit word. -/
def bnot32 (x : Nat) : Nat := 4294967295 - x % 4294967296

/-- Combine two numbers bit by bit with `op`, over `fuel` low bits
(structural recursion, so the kernel can evaluate it; `fuel = 32` covers
all 32-bit words). -/
def bit32Go (op : Nat → Nat → Nat) : Nat → Nat → Nat → Nat
  | 0, _, _ => 0
  | fuel + 1, x, y => bit32Go op fuel (x / 2) (y / 2) * 2 + op (x % 2) (y % 2)

/-- Bitwise AND on 32-bit words. -/
def land32 (x y : Nat) : Nat := bit32Go (fun a b => a * b) 32 x y

/-- Bitwise OR on 32-bit words. -/
def lor32 (x y : Nat) : Nat := bit32Go (fun a b => a + b - a * b) 32 x y

/-- Bitwise XOR on 32-bit words. -/
def lxor32 (x y : Nat) : Nat := bit32Go (fun a b => (a + b) % 2) 32 x y

/-- MD5 round constants `K[i] = floor(2^32 * abs(sin(i + 1)))` (RFC 1321). -/
def md5K : List Nat :=
  [0xd76aa478, 0xe8c7b756, 0x242070db, 0xc1bdceee,
   0xf57c0faf, 0x4787c62a, 0xa8304613, 0xfd469501,
   0x698098d8, 0x8b44f7af, 0xffff5bb1, 0x895cd7be,
   0x6b901122, 0xfd987193, 0xa679438e, 0x49b40821,
   0xf61e2562, 0xc040b340, 0x265e5a51, 0xe9b6c7aa,
   0xd62f105d, 0x02441453, 0xd8a1e681, 0xe7d3fbc8,
   0x21e1cde6, 0xc33707d6, 0xf4d50d87, 0x455a14ed,
   0xa9e3e905, 0xfcefa3f8, 0x676f02d9, 0x8d2a4c8a,
   0xfffa3942, 0x8771f681, 0x6d9d6122, 0xfde5380c,
   0xa4beea44, 0x4bdecfa9, 0xf6bb4b60, 0xbebfbc70,
   0x289b7ec6, 0xeaa127fa, 0xd4ef3085, 0x04881d05,
   0xd9d4d039, 0xe6db99e5, 0x1fa27cf8, 0xc4ac5665,
   0xf4292244, 0x432aff97, 0xab9423a7, 0xfc93a039,
   0x655b59c3, 0x8f0ccc92, 0xffeff47d, 0x85845dd1,
   0x6fa87e4f, 0xfe2ce6e0, 0xa3014314, 0x4e0811a1,
   0xf7537e82, 0xbd3af235, 0x2ad7d2bb, 0xeb86d391]

/-- MD5 per-round left-rotation amounts (RFC 1321). -/
def md5S : List Nat :=
  [7, 12, 17, 22, 7, 12, 17, 22, 7, 12, 17, 22, 7, 12, 17, 22,
   5, 9, 14, 20, 5, 9, 14, 20, 5, 9, 14, 20, 5, 9, 14, 20,
   4, 11, 16, 23, 4, 11, 16, 23, 4, 11, 16, 23, 4, 11, 16, 23,
   6, 10, 15, 21, 6, 10, 15, 21, 6, 10, 15, 21, 6, 10, 15, 21]

/-- MD5 auxiliary function F. -/
def md5F (b c d : Nat) : Nat := lor32 (land32 b c) (land32 (bnot32 b) d)

/-- MD5 auxiliary function G. -/
def md5G (b c d : Nat) : Nat := lor32 (land32 d b) (land32 (bnot32 d) c)

/-- MD5 auxiliary function H. -/
def md5H (b c d : Nat) : Nat := lxor32 b (lxor32 c d)

/-- MD5 auxiliary function I. -/
def md5I (b c d : Nat) : Nat := lxor32 c (lor32 b (bnot32 d))

/-- The four 32-bit words of MD5 state. -/
structure MD5State where
  a : Nat
  b : Nat
  c : Nat
  d : Nat
deriving DecidableEq

/-- One of the 64 MD5 steps; `M` gives the 16 message words of the chunk. -/
def md5Step (M : Nat → Nat) (st : MD5State) (i : Nat) : MD5State :=
  let fg : Nat × Nat :=
    if i < 16 then (md5F st.b st.c st.d, i)
    else if i < 32 then (md5G st.b st.c st.d, (5 * i + 1) % 16)
    else if i < 48 then (md5H st.b st.c st.d, (3 * i + 5) % 16)
    else (md5I st.b st.c st.d, 7 * i % 16)
  let f := w32 (fg.1 + st.a + md5K.getD i 0 + M fg.2)
  ⟨st.d, w32 (st.b + rotl32 f (md5S.getD i 0)), st.b, st.c⟩

/-- Message word `i` (little-endian) of a 64-byte chunk. -/
def md5Words (chunk : List Nat) (i : Nat) : Nat :=
  chunk.getD (4 * i) 0 + 256 * chunk.getD (4 * i + 1) 0 +
    65536 * chunk.getD (4 * i + 2) 0 + 16777216 * chunk.getD (4 * i + 3) 0

/-- MD5 compression of one 64-byte chunk into the running state. -/
def md5Compress (st : MD5State) (chunk : List Nat) : MD5State :=
  let r := (List.range 64).foldl (md5Step (md5Words chunk)) st
  ⟨w32 (st.a + r.a), w32 (st.b + r.b), w32 (st.c + r.c), w32 (st.d + r.d)⟩

/-- Split a byte list into consecutive 64-byte chunks (structural recursion on
a fuel counter so that the kernel can evaluate it; `fuel = l.length` always
suffices because every step consumes at least one byte). -/
def chunks64Aux : Nat → List Nat → List (List Nat)
  | 0, _ => []
  | _, [] => []
  | fuel + 1, x :: rest => (x :: rest).take 64 :: chunks64Aux fuel (rest.drop 63)

/-- Split a byte list into consecutive 64-byte chunks. -/
def chunks64 (l : List Nat) : List (List Nat) := chunks64Aux l.length l

/-- MD5 padding: a `0x80` byte, zeros to 56 mod 64, then the 64-bit
little-endian bit length. -/
def md5Pad (msg : List Nat) : List Nat :=
  let len := msg.length
  let zeros := (120 - (len + 1) % 64) % 64
  msg ++ [128] ++ List.replicate zeros 0 ++
    (List.range 8).map (fun i => len * 8 / 2 ^ (8 * i) % 256)

/-- MD5 initial state (RFC 1321). -/
def md5Init : MD5State := ⟨0x67452301, 0xefcdab89, 0x98badcfe, 0x10325476⟩

/-- Little-endian byte serialisation of a 32-bit word. -/
def leBytes4 (n : Nat) : List Nat :=
  [n % 256, n / 256 % 256, n / 65536 % 256, n / 16777216 % 256]

/-- The 16-byte MD5 digest of a byte string. -/
def md5Digest (msg : List Nat) : List Nat :=
  let st := (chunks64 (md5Pad msg)).foldl md5Compress md5Init
  leBytes4 st.a ++ leBytes4 st.b ++ leBytes4 st.c ++ leBytes4 st.d

/-- Lowercase hexadecimal digit characters. -/
def hexChar (n : Nat) : Char := "0123456789abcdef".toList.getD n '0'

/-- Python `hashlib.md5(bytes).hexdigest()`: 32 lowercase hex characters. -/
def md5hexdigest (msg : List Nat) : String :=
  String.mk ((md5Digest msg).foldr (fun b acc => hexChar (b / 16) :: hexChar (b % 16) :: acc) [])

/-- UTF-8 encoding of one character. -/
def charUtf8 (c : Char) : List Nat :=
  let n := c.toNat
  if n < 128 then [n]
  else if n < 2048 then [192 + n / 64, 128 + n % 64]
  else if n < 65536 then [224 + n / 4096, 128 + n / 64 % 64, 128 + n % 64]
  else [240 + n / 262144, 128 + n / 4096 % 64, 128 + n / 64 % 64, 128 + n % 64]

/-- Python `str.encode()` / `bytes(Path)`: the UTF-8 bytes of a string. -/
def utf8Bytes (s : String) : List Nat := (s.data.map charUtf8).flatten

/-- Split a character list on `/` (structural version of `splitOn "/"`). -/
def splitOnSlash : List Char → List (List Char)
  | [] => [[]]
  | c :: rest =>
    match splitOnSlash rest with
    | [] => [[]]
    | g :: gs => if c = '/' then [] :: g :: gs else (c :: g) :: gs

/-- Python `pathlib.PurePath.name`: the final path component. Paths are
assumed normalised (no trailing slash), as `pathlib` produces them. -/
def pathName (p : String) : String :=
  String.mk (((splitOnSlash p.toList).getLast?).getD p.toList)

/-- Whether `pre` is a prefix of `s` (structural version of
`String.startsWith`). -/
def strStarts (s pre : String) : Bool := pre.toList.isPrefixOf s.toList

/-- The sublist of `l` starting at the last occurrence of a dot, if any. -/
def suffixFromLastDot : List Char → Option (List Char)
  | [] => none
  | c :: rest =>
    match suffixFromLastDot rest with
    | some s => some s
    | none => if c = '.' then some (c :: rest) else none

/-- Python `pathlib.PurePath.suffix`: `name[i:]` for `i = name.rfind(".")`
when `0 < i < len(name) - 1`, else the empty string. -/
def pathSuffix (p : String) : String :=
  let name := (pathName p).toList
  match suffixFromLastDot name with
  | some sfx => if sfx.length < name.length && 1 < sfx.length then String.mk sfx else ""
  | none => ""

/-- A key of a Python dict of staged files. The code mixes `str` keys (the
standard assets, the accumulator targets, `from_facts` targets) and
`pathlib.Path` keys (`from_files` targets); in Python a `str` and a `Path`
with the same spelling are distinct dict keys, so the spelling is tagged. -/
inductive Key where
  | str (s : String)
  | path (s : String)
deriving DecidableEq

/-- Spelling of a staged-file key. -/
def keyString : Key → String
  | .str s => s
  | .path s => s

/-- A value of the staged-file map: a filesystem path, or an in-memory text
blob (models `io.StringIO(contents)`). -/
inductive FileSource where
  | path (p : String)
  | mem (contents : String)
deriving DecidableEq

/-- The `Datasource` dataclass of `probs_runner/datasource.py`. -/
structure Datasource where
  input_files : List (Key × FileSource)
  load_data_script : String
  rules : String
deriving DecidableEq

/-- A `load_data_script` / `rules` argument of `Datasource.from_files`:
either a `pathlib.Path` (carried with the text its `read_text()` returns)
or a literal string. -/
inductive ScriptArg where
  | path (text : String)
  | str (s : String)
deriving DecidableEq

/-- Resolution of a non-`None` script argument in `from_files`:
`load_data_script.read_text()` if it is a `Path`, the string itself otherwise. -/
def scriptArgText : ScriptArg → String
  | .path t => t
  | .str s => s

/-- The `input_files` argument of `from_files`: either a dict mapping target
file name to source path, or a list of source paths. -/
inductive InputFilesArg where
  | dict (entries : List (String × String))
  | list (paths : List String)
deriving DecidableEq

/-- `Datasource.from_facts`: one synthetic staged file named by the MD5 of
the fact text, plus a one-line import statement. -/
def Datasource.from_facts (facts : String) : Datasource :=
  let hash := md5hexdigest (utf8Bytes facts)
  { input_files := [(Key.str ("data/" ++ hash ++ ".ttl"), FileSource.mem facts)],
    load_data_script := "import " ++ hash ++ ".ttl\n",
    rules := "" }

/-- The list-to-dict conversion loop at the top of `from_files`: each path is
keyed by its bare file name; a repeated bare name raises immediately. -/
def listToDictAux (acc : List (String × String)) : List String → Except String (List (String × String))
  | [] => .ok acc
  | p :: rest =>
    if (acc.map Prod.fst).contains (pathName p) then
      .error "Duplicate path name in list; use dict to specify different names"
    else
      listToDictAux (acc ++ [(pathName p, p)]) rest

/-- Convert the list form of `input_files` to the dict form. -/
def listToDict (paths : List String) : Except String (List (String × String)) :=
  listToDictAux [] paths

/-- Content-derived identifier of a datasource:
`md5(b"".join(bytes(p) for p in input_files.values())).hexdigest()`. -/
def datasourceName (sources : List String) : String :=
  md5hexdigest ((sources.map utf8Bytes).flatten)

/-- A Python set comprehension over a list: first occurrences, in order. -/
def setOfList (seen : List String) : List String → List String
  | [] => []
  | x :: rest =>
    if seen.contains x then setOfList seen rest else x :: setOfList (x :: seen) rest

/-- Python `==` on sets, over the list representation: mutual inclusion. -/
def setEq (xs ys : List String) : Bool :=
  xs.all (fun x => ys.contains x) && ys.all (fun y => xs.contains y)

/-- Python `repr` of a set of strings, as interpolated by `str.format`
(`set()` when empty; element order in our model is first-occurrence order). -/
def pySetRepr (l : List String) : String :=
  if l.isEmpty then "set()"
  else "\x7b" ++ String.intercalate ", " (l.map (fun s => "\x27" ++ s ++ "\x27")) ++ "\x7d"

/-- The fixed allow-list `auto_suffices` of `from_files`. -/
def autoSuffices : List String := [".ttl", ".nt", ".nt.gz", ".ttl.gz"]

/-- The first step of `from_files`: a dict argument is used as is, a list
argument is converted with the duplicate-name check. -/
def resolveInputFiles : InputFilesArg → Except String (List (String × String))
  | .list l => listToDict l
  | .dict m => Except.ok m

/-- The set `suffices` of `from_files`: suffixes of the staged keys. -/
def suffixSetOf (full_input_files : List (Key × FileSource)) : List String :=
  setOfList [] (full_input_files.map (fun kv => pathSuffix (keyString kv.1)))

/-- The `load_data_script is None` branch of `from_files`: auto-generate
the import lines when the set of suffixes of the staged keys equals the
allow-list, else raise naming the set difference. -/
def autoLoadScript (files : List (String × String))
    (full_input_files : List (Key × FileSource)) : Except String String :=
  if setEq (suffixSetOf full_input_files) autoSuffices then
    Except.ok ("# Auto generated to load TTL files\n" ++
      String.intercalate "\n" (files.map (fun fs => "import \"$(dir.datasource)/" ++ fs.1 ++ "\"")))
  else
    Except.error ("No load_data_script given, and cannot automatically load " ++
      pySetRepr ((suffixSetOf full_input_files).filter (fun s => !autoSuffices.contains s)) ++ " files")

/-- The generated `dir_setup` directive of `from_files`. -/
def dirSetupLine (datasource_name : String) : String :=
  "set dir.datasource \"$(dir.root)/data/" ++ datasource_name ++ "/\""

/-- The local `full_input_files` of `from_files`: the resolved dict entries,
each keyed under `data/<datasource_name>/`. -/
def fullInputFilesOf (files : List (String × String)) : List (Key × FileSource) :=
  files.map (fun fs =>
    (Key.path ("data/" ++ datasourceName (files.map Prod.snd) ++ "/" ++ fs.1),
      FileSource.path fs.2))

/-- `Datasource.from_files` of `probs_runner/datasource.py`, line for line
(the source's local variables `datasource_name` and `full_input_files` are
the helper functions `datasourceName` and `fullInputFilesOf`). -/
def Datasource.from_files (input_files : InputFilesArg) (load_data_script : Option ScriptArg)
    (rules : Option ScriptArg) : Except String Datasource :=
  match resolveInputFiles input_files with
  | .error e => .error e
  | .ok files =>
    match (match load_data_script with
           | none => autoLoadScript files (fullInputFilesOf files)
           | some arg => Except.ok (scriptArgText arg)) with
    | .error e => .error e
    | .ok script =>
      Except.ok ⟨fullInputFilesOf files,
        dirSetupLine (datasourceName (files.map Prod.snd)) ++ "\n" ++ script,
        match rules with
        | none => ""
        | some arg => scriptArgText arg⟩

/-- A directory passed to `load_datasource`, abstracted by what the function
observes of it: whether it is a directory, the contents of the two optional
conventional files, and the results of the `*.csv` and `*.ttl` globs. -/
structure DatasourceDir where
  is_dir : Bool
  loadDataText : Option String
  mapText : Option String
  csvFiles : List String
  ttlFiles : List String

/-- `load_datasource` of `probs_runner/datasource.py`: pass `load_data.rdfox`
and `map.dlog` as `Path`s when present, and the empty *string* when absent. -/
def load_datasource (d : DatasourceDir) : Except String Datasource :=
  if !d.is_dir then Except.error "NotADirectoryError" else
  Datasource.from_files (InputFilesArg.list (d.csvFiles ++ d.ttlFiles))
    (some (match d.loadDataText with
           | some t => ScriptArg.path t
           | none => ScriptArg.str ""))
    (some (match d.mapText with
           | some t => ScriptArg.path t
           | none => ScriptArg.str ""))

/-- `DEFAULT_PORT` of `probs_runner/runners.py`. -/
def DEFAULT_PORT : Int := 12112

/-- A `port` argument as it arrives inside a runner function after Python
default substitution: `none` models an explicit `None`, `some n` an integer.
Omitting the argument binds the default value, i.e. `some DEFAULT_PORT`. -/
def omittedPort : Option Int := some DEFAULT_PORT

/-- The composed directive `set endpoint.port "<int(port)>"`. -/
def portDirectiveLine (n : Int) : String := "set endpoint.port \"" ++ toString n ++ "\""

/-- Script composed by `probs_convert_data`. -/
def probs_convert_data_script : List String :=
  ["exec scripts/data-conversion/master"]

/-- Script composed by `probs_convert_endpoint`. This function has no
`if port is None` guard, so an explicit `None` reaches `int(port)` and
raises `TypeError`. -/
def probs_convert_endpoint_script (port : Option Int) : Except String (List String) :=
  match port with
  | none => Except.error
      "TypeError: int() argument must be a string, a bytes-like object or a real number, not NoneType"
  | some n => Except.ok
      [portDirectiveLine n,
       "exec scripts/shared/setup-RDFox",
       "exec scripts/data-conversion/master-pipeline",
       "exec scripts/reasoning/master-pipeline"]

/-- Script composed by `probs_convert_enhance_data`. -/
def probs_convert_enhance_data_script : List String :=
  ["exec scripts/shared/setup-RDFox",
   "exec scripts/data-conversion/master-pipeline",
   "exec scripts/data-enhancement/master-pipeline",
   "exec scripts/data-enhancement/save_data",
   "quit"]

/-- Script composed by `probs_convert_enhance_endpoint`, including its
`if port is None: port = 12112` guard. -/
def probs_convert_enhance_endpoint_script (port : Option Int) : List String :=
  let p : Int := match port with | none => 12112 | some n => n
  [portDirectiveLine p,
   "exec scripts/shared/setup-RDFox",
   "exec scripts/data-conversion/master-pipeline",
   "exec scripts/data-enhancement/master-pipeline",
   "exec scripts/reasoning/master-pipeline"]

/-- Script composed by `probs_enhance_data`. -/
def probs_enhance_data_script : List String :=
  ["exec scripts/data-enhancement/master",
   "quit"]

/-- Script composed by `probs_enhance_endpoint`, including its
`if port is None: port = 12112` guard. -/
def probs_enhance_endpoint_script (port : Option Int) : List String :=
  let p : Int := match port with | none => 12112 | some n => n
  [portDirectiveLine p,
   "exec scripts/shared/setup-RDFox",
   "exec scripts/shared/init-enhancement",
   "exec scripts/data-enhancement/input",
   "exec scripts/data-enhancement/master-pipeline",
   "exec scripts/reasoning/master-pipeline"]

/-- Script composed by `probs_endpoint`, including its
`if port is None: port = 12112` guard. -/
def probs_endpoint_script (port : Option Int) : List String :=
  let p : Int := match port with | none => 12112 | some n => n
  [portDirectiveLine p,
   "exec scripts/reasoning/master"]

/-- Python `k in d` on the staged-file dict. -/
def dictContains (m : List (Key × FileSource)) (k : Key) : Bool :=
  m.any (fun kv => kv.1 == k)

/-- Python `d[k]` lookup on the staged-file dict (first matching entry). -/
def dictGet (m : List (Key × FileSource)) (k : Key) : Option FileSource :=
  (m.find? (fun kv => kv.1 == k)).map Prod.snd

/-- Python `d[k] = v` on the staged-file dict: replace in place if the key is
present, append otherwise. -/
def dictSet (m : List (Key × FileSource)) (k : Key) (v : FileSource) : List (Key × FileSource) :=
  if dictContains m k then m.map (fun kv => if kv.1 == k then (k, v) else kv)
  else m ++ [(k, v)]

/-- `_standard_input_files` of `probs_runner/runners.py` (after the
`script_source_dir` default has been resolved). -/
def standard_input_files (script_source_dir : String) : List (Key × FileSource) :=
  [(Key.str "data/probs.fss", FileSource.path (script_source_dir ++ "/data/probs.fss")),
   (Key.str "data/additional_info.ttl", FileSource.path (script_source_dir ++ "/data/additional_info.ttl")),
   (Key.str "scripts/", FileSource.path (script_source_dir ++ "/scripts/"))]

/-- The accumulator target for load instructions. -/
def loadDataKey : Key := Key.str "scripts/data-conversion/load_data.rdfox"

/-- The accumulator target for mapping rules. -/
def mapDlogKey : Key := Key.str "scripts/data-conversion/map.dlog"

/-- The body of the inner loop of `_add_datasources_to_input_files`:
`if tgt in input_files: raise ... else: input_files[tgt] = src`. -/
def addOneFile (m : List (Key × FileSource)) (kv : Key × FileSource) :
    Except String (List (Key × FileSource)) :=
  if dictContains m kv.1 then
    Except.error ("Duplicate entry in input_files for \x27" ++ keyString kv.1 ++ "\x27")
  else
    Except.ok (dictSet m kv.1 kv.2)

/-- The inner loop of `_add_datasources_to_input_files` over one
datasource's `input_files.items()`. -/
def addFilesOf (m : List (Key × FileSource)) : List (Key × FileSource) →
    Except String (List (Key × FileSource))
  | [] => Except.ok m
  | kv :: rest =>
    match addOneFile m kv with
    | .error e => .error e
    | .ok m2 => addFilesOf m2 rest

/-- The outer loop of `_add_datasources_to_input_files` over the datasources. -/
def addAllDatasources (m : List (Key × FileSource)) : List Datasource →
    Except String (List (Key × FileSource))
  | [] => Except.ok m
  | ds :: rest =>
    match addFilesOf m ds.input_files with
    | .error e => .error e
    | .ok m2 => addAllDatasources m2 rest

/-- `_add_datasources_to_input_files` of `probs_runner/runners.py`: set the
two accumulator entries to the newline-joined texts, then add every
datasource's staged files, raising on a duplicate target. -/
def add_datasources_to_input_files (input_files : List (Key × FileSource))
    (datasources : List Datasource) : Except String (List (Key × FileSource)) :=
  addAllDatasources
    (dictSet
      (dictSet input_files loadDataKey
        (FileSource.mem (String.intercalate "\n" (datasources.map Datasource.load_data_script))))
      mapDlogKey
      (FileSource.mem (String.intercalate "\n" (datasources.map Datasource.rules))))
    datasources

/-- A key of the result dict of `answer_queries`: the name from the dict
form, or the synthetic integer index from the list form. -/
inductive QueryKey where
  | int (n : Nat)
  | str (s : String)
deriving DecidableEq

/-- The `queries` argument of `answer_queries`: a list of query texts, a dict
of named query texts, or any other value. -/
inductive QueriesArg where
  | list (queries : List String)
  | dict (queries : List (QueryKey × String))
  | other (descr : String)
deriving DecidableEq

/-- The `pd.option_context`/`logger.info` block of `answer_queries` only
reads `answers_df`; it is modelled as the identity on the answers. -/
def logQueryResults {R : Type} (answers : List (QueryKey × R)) : List (QueryKey × R) :=
  answers

/-- `answer_queries` of `probs_runner/runners.py`; `query_records` is the
endpoint's query method. -/
def answer_queries {R : Type} (query_records : String → R) (queries : QueriesArg) :
    Except String (List (QueryKey × R)) :=
  match queries with
  | .list l =>
      Except.ok (logQueryResults (l.enum.map (fun iq => (QueryKey.int iq.1, query_records iq.2))))
  | .dict m =>
      Except.ok (logQueryResults (m.map (fun kv => (kv.1, query_records kv.2))))
  | .other _ => Except.error "query should be list or dict"

/-- Projection of a fallible result to its success value. -/
def okOf {α : Type} (e : Except String α) : Option α :=
  match e with
  | .ok a => some a
  | .error _ => none

/-- Staged target keys of a fallible `from_files` result. -/
def stagedKeys (e : Except String Datasource) : Option (List Key) :=
  (okOf e).map (fun d => d.input_files.map Prod.fst)

/-- Staged source values of a fallible `from_files` result. -/
def stagedSources (e : Except String Datasource) : Option (List FileSource) :=
  (okOf e).map (fun d => d.input_files.map Prod.snd)

/-- Resolved load script of a fallible `from_files` result. -/
def scriptOf (e : Except String Datasource) : Option String :=
  (okOf e).map Datasource.load_data_script

/-- The staged-file map of a fallible merge result (empty map on error). -/
def mOf (e : Except String (List (Key × FileSource))) : List (Key × FileSource) :=
  (okOf e).getD []

/-!
## Theorems

First a few facts about the Python-semantics helpers, then one theorem per
specification claim (plus witnesses and counterexamples).
-/

/-- A list with no match under `suffixFromLastDot` contains no dot. -/
theorem no_dot_of_suffixFromLastDot_none :
    ∀ l : List Char, suffixFromLastDot l = none → l.contains '.' = false := by
  intro l
  induction l with
  | nil => intro _; rfl
  | cons c rest ih =>
    intro h
    cases hsr : suffixFromLastDot rest with
    | some s => simp [suffixFromLastDot, hsr] at h
    | none =>
      simp only [suffixFromLastDot, hsr] at h
      have hc : ¬ c = '.' := by
        intro hceq
        simp [hceq] at h
      have hrest := ih hsr
      simp
      exact ⟨fun heq => hc heq.symm, by simpa using hrest⟩

/-- The sublist returned by `suffixFromLastDot` has no dot after its head. -/
theorem tail_dotfree_of_suffixFromLastDot :
    ∀ l s, suffixFromLastDot l = some s → s.tail.contains '.' = false := by
  intro l
  induction l with
  | nil => intro s h; simp [suffixFromLastDot] at h
  | cons c rest ih =>
    intro s h
    cases hsr : suffixFromLastDot rest with
    | some s2 =>
      simp only [suffixFromLastDot, hsr] at h
      injection h with h2
      subst h2
      exact ih s2 hsr
    | none =>
      simp only [suffixFromLastDot, hsr] at h
      by_cases hc : c = '.'
      · simp only [hc, if_pos rfl] at h
        cases h
        simpa using no_dot_of_suffixFromLastDot_none rest hsr
      · simp [hc] at h

/-- A `Path.suffix` value never has a dot after its leading dot; in
particular it can never equal `".nt.gz"` or `".ttl.gz"`. -/
theorem pathSuffix_tail_dotfree (p : String) :
    (pathSuffix p).toList.tail.contains '.' = false := by
  have hdef : pathSuffix p =
      (match suffixFromLastDot (pathName p).toList with
       | some sfx =>
         if sfx.length < (pathName p).toList.length && 1 < sfx.length
         then String.mk sfx else ""
       | none => "") := rfl
  rw [hdef]
  cases hs : suffixFromLastDot (pathName p).toList with
  | none => rfl
  | some sfx =>
    simp only
    split
    · exact tail_dotfree_of_suffixFromLastDot _ sfx hs
    · rfl

/-- Membership in the Python-set model implies membership in the source list. -/
theorem mem_of_mem_setOfList :
    ∀ (l seen : List String) (x : String), x ∈ setOfList seen l → x ∈ l := by
  intro l
  induction l with
  | nil => intro seen x h; simp [setOfList] at h
  | cons y rest ih =>
    intro seen x h
    simp only [setOfList] at h
    split at h
    · exact List.mem_cons_of_mem _ (ih seen x h)
    · rcases List.mem_cons.mp h with h1 | h2
      · exact h1 ▸ List.mem_cons_self _ _
      · exact List.mem_cons_of_mem _ (ih _ x h2)

/-- The `load_data_script is None` branch can never produce a script: the
suffix-set equality it tests demands that some staged key have suffix
`".nt.gz"`, which `Path.suffix` can never produce. -/
theorem autoLoadScript_never_ok (files : List (String × String))
    (full : List (Key × FileSource)) : okOf (autoLoadScript files full) = none := by
  unfold autoLoadScript
  split
  · exfalso
    rename_i hset
    have hset2 : autoSuffices.all
        (fun y => (suffixSetOf full).contains y) = true := by
      have hb : (setEq (suffixSetOf full) autoSuffices) = true := hset
      rw [setEq] at hb
      exact (Bool.and_eq_true _ _ ▸ hb).2
    have hall := hset2
    rw [List.all_eq_true] at hall
    have hmem : List.contains (suffixSetOf full) ".nt.gz" = true := by
      have h1 : (".nt.gz" : String) ∈ autoSuffices := by decide
      simpa using hall _ h1
    have hmem1 : (".nt.gz" : String) ∈ suffixSetOf full := by
      simpa using hmem
    have hmem2 := mem_of_mem_setOfList _ _ _ hmem1
    rw [List.mem_map] at hmem2
    obtain ⟨kv, _, hkv⟩ := hmem2
    have hdot := pathSuffix_tail_dotfree (keyString kv.1)
    rw [hkv] at hdot
    simp at hdot
  · rfl

/-- C1 supporting theorem (the code contradicts its docstring and tests):
with no load instruction `from_files` always raises, because the suffix-set
test uses equality with the full allow-list rather than inclusion, and the
compound suffixes in the allow-list are unreachable for `Path.suffix`; at
the concrete inputs, a lone `.ttl` file is rejected with an empty offending
set, and a lone `.csv` file is rejected naming `.csv`. -/
theorem from_files_auto_always_raises :
    (∀ (args : InputFilesArg) (rules : Option ScriptArg),
        okOf (Datasource.from_files args none rules) = none)
  ∧ Datasource.from_files (.list ["data.ttl"]) none none =
      Except.error "No load_data_script given, and cannot automatically load set() files"
  ∧ Datasource.from_files (.list ["data.csv"]) none none =
      Except.error
        "No load_data_script given, and cannot automatically load \x7b\x27.csv\x27\x7d files" := by
  refine ⟨?_, by rfl, by rfl⟩
  intro args rules
  unfold Datasource.from_files
  cases hr : resolveInputFiles args with
  | error e => rfl
  | ok files =>
    simp only
    cases ha : autoLoadScript files (fullInputFilesOf files) with
    | error e => rfl
    | ok s =>
      have hok := autoLoadScript_never_ok files (fullInputFilesOf files)
      rw [ha] at hok
      simp [okOf] at hok

/-- C2 counterexample: `probs_convert_endpoint` has no `None` guard, so an
explicit `None` port does not fall back to the default but raises
`TypeError` from `int(port)`. -/
theorem convert_endpoint_none_port_raises :
    probs_convert_endpoint_script none = Except.error
      "TypeError: int() argument must be a string, a bytes-like object or a real number, not NoneType" :=
  rfl

/-- C2 amended: omitting the port yields the fixed default 12112 on every
endpoint-producing operation, and an explicit `None` falls back to the same
default in `probs_convert_enhance_endpoint`, `probs_enhance_endpoint` and
`probs_endpoint` (but not in `probs_convert_endpoint`); for an explicit
port, each composed script carries exactly that port and nothing else. -/
theorem port_default_behaviour :
    probs_convert_endpoint_script omittedPort =
      Except.ok [portDirectiveLine 12112,
        "exec scripts/shared/setup-RDFox",
        "exec scripts/data-conversion/master-pipeline",
        "exec scripts/reasoning/master-pipeline"]
  ∧ (probs_convert_enhance_endpoint_script omittedPort).head? = some (portDirectiveLine 12112)
  ∧ probs_convert_enhance_endpoint_script none = probs_convert_enhance_endpoint_script (some 12112)
  ∧ (probs_enhance_endpoint_script omittedPort).head? = some (portDirectiveLine 12112)
  ∧ probs_enhance_endpoint_script none = probs_enhance_endpoint_script (some 12112)
  ∧ (probs_endpoint_script omittedPort).head? = some (portDirectiveLine 12112)
  ∧ probs_endpoint_script none = probs_endpoint_script (some 12112)
  ∧ (∀ n : Int, probs_convert_endpoint_script (some n) =
      Except.ok [portDirectiveLine n,
        "exec scripts/shared/setup-RDFox",
        "exec scripts/data-conversion/master-pipeline",
        "exec scripts/reasoning/master-pipeline"])
  ∧ (∀ n : Int, probs_convert_enhance_endpoint_script (some n) =
      [portDirectiveLine n,
       "exec scripts/shared/setup-RDFox",
       "exec scripts/data-conversion/master-pipeline",
       "exec scripts/data-enhancement/master-pipeline",
       "exec scripts/reasoning/master-pipeline"])
  ∧ (∀ n : Int, probs_enhance_endpoint_script (some n) =
      [portDirectiveLine n,
       "exec scripts/shared/setup-RDFox",
       "exec scripts/shared/init-enhancement",
       "exec scripts/data-enhancement/input",
       "exec scripts/data-enhancement/master-pipeline",
       "exec scripts/reasoning/master-pipeline"])
  ∧ (∀ n : Int, probs_endpoint_script (some n) =
      [portDirectiveLine n, "exec scripts/reasoning/master"]) :=
  ⟨rfl, rfl, rfl, rfl, rfl, rfl, rfl,
   fun _ => rfl, fun _ => rfl, fun _ => rfl, fun _ => rfl⟩

/-- C7: a single-purpose artifact request invokes only that stage's master
script and configures no endpoint, while every endpoint-producing request
composes a script whose first directive sets the endpoint port and whose
remaining lines execute the chained stage scripts ending with the
reasoning stage. -/
theorem pipeline_script_shapes :
    probs_convert_data_script = ["exec scripts/data-conversion/master"]
  ∧ probs_convert_data_script.any (fun l => strStarts l "set endpoint.port") = false
  ∧ probs_enhance_data_script.any (fun l => strStarts l "set endpoint.port") = false
  ∧ probs_convert_enhance_data_script.any (fun l => strStarts l "set endpoint.port") = false
  ∧ (∀ n : Int, probs_convert_endpoint_script (some n) =
      Except.ok (portDirectiveLine n ::
        ["exec scripts/shared/setup-RDFox",
         "exec scripts/data-conversion/master-pipeline",
         "exec scripts/reasoning/master-pipeline"]))
  ∧ (∀ p : Option Int,
      (probs_convert_enhance_endpoint_script p).head? =
        some (portDirectiveLine (p.getD 12112))
      ∧ (probs_convert_enhance_endpoint_script p).tail =
        ["exec scripts/shared/setup-RDFox",
         "exec scripts/data-conversion/master-pipeline",
         "exec scripts/data-enhancement/master-pipeline",
         "exec scripts/reasoning/master-pipeline"])
  ∧ (∀ p : Option Int,
      (probs_enhance_endpoint_script p).head? =
        some (portDirectiveLine (p.getD 12112))
      ∧ (probs_enhance_endpoint_script p).tail =
        ["exec scripts/shared/setup-RDFox",
         "exec scripts/shared/init-enhancement",
         "exec scripts/data-enhancement/input",
         "exec scripts/data-enhancement/master-pipeline",
         "exec scripts/reasoning/master-pipeline"])
  ∧ (∀ p : Option Int,
      (probs_endpoint_script p).head? = some (portDirectiveLine (p.getD 12112))
      ∧ (probs_endpoint_script p).tail = ["exec scripts/reasoning/master"]) := by
  refine ⟨rfl, by decide, by decide, by decide, fun _ => rfl, ?_, ?_, ?_⟩ <;>
    intro p <;> cases p <;> exact ⟨rfl, rfl⟩

/-- C8: `answer_queries` returns a same-shape structure — the exact input
keys for a dict argument, synthetic indices `0..n-1` in order for a list
argument — rejects any other argument shape without consulting the query
function, and the diagnostic dump leaves the result unchanged. -/
theorem answer_queries_shape :
    (∀ (R : Type) (f : String → R) (m : List (QueryKey × String)),
        answer_queries f (QueriesArg.dict m) =
          Except.ok (m.map (fun kv => (kv.1, f kv.2))))
  ∧ (∀ (R : Type) (f : String → R) (l : List String),
        answer_queries f (QueriesArg.list l) =
          Except.ok (l.enum.map (fun iq => (QueryKey.int iq.1, f iq.2))))
  ∧ (∀ (R : Type) (f : String → R) (l : List String),
        (answer_queries f (QueriesArg.list l)).map (fun r => r.map Prod.fst) =
          Except.ok ((List.range l.length).map QueryKey.int))
  ∧ (∀ (R : Type) (f g : String → R) (d : String),
        answer_queries f (QueriesArg.other d) = answer_queries g (QueriesArg.other d))
  ∧ (∀ (R : Type) (f : String → R) (d : String),
        answer_queries f (QueriesArg.other d) = Except.error "query should be list or dict")
  ∧ (∀ (R : Type) (x : List (QueryKey × R)), logQueryResults x = x) := by
  refine ⟨fun _ _ _ => rfl, fun _ _ _ => rfl, ?_, fun _ _ _ _ => rfl,
    fun _ _ _ => rfl, fun _ _ => rfl⟩
  intro R f l
  simp only [answer_queries, logQueryResults, Except.map, List.map_map]
  have hcomp : (Prod.fst ∘ fun iq : Nat × String => (QueryKey.int iq.1, f iq.2)) =
      QueryKey.int ∘ Prod.fst := rfl
  rw [hcomp, ← List.map_map, List.enum_map_fst]

/-- C6: `from_facts` derives the staged file name from the MD5 of the fact
text, so two calls with the same text stage to the identical single target
path, and each result is exactly one staged file plus the one-line import
statement referencing it. -/
theorem from_facts_identity_stable (t u : String) (h : t = u) :
    (Datasource.from_facts t).input_files.map Prod.fst =
      (Datasource.from_facts u).input_files.map Prod.fst
  ∧ (Datasource.from_facts t).input_files =
      [(Key.str ("data/" ++ md5hexdigest (utf8Bytes t) ++ ".ttl"), FileSource.mem t)]
  ∧ (Datasource.from_facts t).load_data_script =
      "import " ++ md5hexdigest (utf8Bytes t) ++ ".ttl\n"
  ∧ (Datasource.from_facts t).rules = "" := by
  subst h
  exact ⟨rfl, rfl, rfl, rfl⟩

/-- Witness for C6 at the fact text used by the repository's tests. -/
theorem from_facts_identity_stable_witness :
    (Datasource.from_facts ":Farming a :Process .").input_files.map Prod.fst =
      (Datasource.from_facts ":Farming a :Process .").input_files.map Prod.fst
  ∧ (Datasource.from_facts ":Farming a :Process .").input_files =
      [(Key.str ("data/" ++ md5hexdigest (utf8Bytes ":Farming a :Process .") ++ ".ttl"),
        FileSource.mem ":Farming a :Process .")]
  ∧ (Datasource.from_facts ":Farming a :Process .").load_data_script =
      "import " ++ md5hexdigest (utf8Bytes ":Farming a :Process .") ++ ".ttl\n"
  ∧ (Datasource.from_facts ":Farming a :Process .").rules = "" :=
  from_facts_identity_stable ":Farming a :Process ." ":Farming a :Process ." rfl

/-- C3 counterexample: a `from_facts` datasource's resolved script is not
prefixed with the `dir.datasource` directive — it is a bare import line. -/
theorem from_facts_no_dir_directive_cx :
    strStarts (Datasource.from_facts "x").load_data_script "set dir.datasource" = false := by
  decide

/-- C3 amended: only `from_files` prefixes the resolved script with the
generated `dir.datasource` directive binding the datasource's staging
sub-folder; `from_facts` produces the bare one-line import statement, which
references exactly the datasource's single staged file under `data/`. -/
theorem load_script_prefixing (args : InputFilesArg) (script : ScriptArg)
    (rules : Option ScriptArg) (d : Datasource) (files : List (String × String))
    (h1 : resolveInputFiles args = Except.ok files)
    (h2 : Datasource.from_files args (some script) rules = Except.ok d) :
    d.load_data_script =
      dirSetupLine (datasourceName (files.map Prod.snd)) ++ "\n" ++ scriptArgText script
  ∧ (∀ t : String,
      (Datasource.from_facts t).load_data_script =
        "import " ++ md5hexdigest (utf8Bytes t) ++ ".ttl\n"
      ∧ (Datasource.from_facts t).input_files.map Prod.fst =
        [Key.str ("data/" ++ md5hexdigest (utf8Bytes t) ++ ".ttl")]) := by
  refine ⟨?_, fun t => ⟨rfl, rfl⟩⟩
  unfold Datasource.from_files at h2
  rw [h1] at h2
  simp only [scriptArgText] at h2
  cases h2
  rfl

/-- Witness for C3's amended theorem at a one-file datasource. -/
theorem load_script_prefixing_witness :
    ((okOf (Datasource.from_files (.list ["d/a.csv"]) (some (ScriptArg.str "import a.csv"))
        none)).getD ⟨[], "", ""⟩).load_data_script =
      dirSetupLine (datasourceName (([("a.csv", "d/a.csv")]).map Prod.snd)) ++ "\n" ++
        scriptArgText (ScriptArg.str "import a.csv") := by
  have h := load_script_prefixing (.list ["d/a.csv"]) (ScriptArg.str "import a.csv") none
    ((okOf (Datasource.from_files (.list ["d/a.csv"]) (some (ScriptArg.str "import a.csv"))
        none)).getD ⟨[], "", ""⟩)
    [("a.csv", "d/a.csv")] (by rfl) (by rfl)
  exact h.1

/-- C4 counterexample: the identifier hashes the *unseparated* concatenation
of the source path bytes, so the datasource on sources `ab`, `c` and the
datasource on sources `a`, `bc` differ in their source files yet receive
the same identifier and identical (not disjoint) staged target paths. -/
theorem staged_paths_collision_cx :
    stagedKeys (Datasource.from_files (.dict [("f.ttl", "ab"), ("g.ttl", "c")])
        (some (ScriptArg.str "s")) none) =
      stagedKeys (Datasource.from_files (.dict [("f.ttl", "a"), ("g.ttl", "bc")])
        (some (ScriptArg.str "s")) none)
  ∧ stagedSources (Datasource.from_files (.dict [("f.ttl", "ab"), ("g.ttl", "c")])
        (some (ScriptArg.str "s")) none) ≠
      stagedSources (Datasource.from_files (.dict [("f.ttl", "a"), ("g.ttl", "bc")])
        (some (ScriptArg.str "s")) none)
  ∧ (stagedKeys (Datasource.from_files (.dict [("f.ttl", "ab"), ("g.ttl", "c")])
        (some (ScriptArg.str "s")) none)).isSome = true := by
  refine ⟨rfl, ?_, rfl⟩
  intro h
  simp [stagedSources, okOf, Datasource.from_files, resolveInputFiles,
    fullInputFilesOf] at h

/-- C4 amended: identical resolved source paths give the same identifier and
the same staged target paths even when scripts or rules differ; distinct
source files generally give distinct staged paths (as for `path1/x.ttl`
versus `path2/x.ttl`), but only the concatenated source-path bytes are
hashed, so distinct source lists can collide. -/
theorem staged_paths_identity :
    (∀ (m : List (String × String)) (ls1 ls2 : ScriptArg) (r1 r2 : Option ScriptArg),
        stagedKeys (Datasource.from_files (.dict m) (some ls1) r1) =
          stagedKeys (Datasource.from_files (.dict m) (some ls2) r2))
  ∧ (∀ (l : List String) (ls1 ls2 : ScriptArg) (r1 r2 : Option ScriptArg),
        stagedKeys (Datasource.from_files (.list l) (some ls1) r1) =
          stagedKeys (Datasource.from_files (.list l) (some ls2) r2))
  ∧ stagedKeys (Datasource.from_files (.list ["path1/x.ttl"]) (some (ScriptArg.str "s")) none) ≠
      stagedKeys (Datasource.from_files (.list ["path2/x.ttl"]) (some (ScriptArg.str "s")) none)
  ∧ (stagedKeys (Datasource.from_files (.list ["path1/x.ttl"])
      (some (ScriptArg.str "s")) none)).isSome = true := by
  refine ⟨fun m ls1 ls2 r1 r2 => rfl, ?_, ?_, rfl⟩
  · intro l ls1 ls2 r1 r2
    unfold Datasource.from_files
    cases h : resolveInputFiles (InputFilesArg.list l) with
    | error e => rfl
    | ok files => rfl
  · decide

/-- Appending the empty string on the right is the identity. -/
theorem str_append_empty (s : String) : s ++ "" = s := by
  cases s with
  | mk l =>
    show String.mk (l ++ []) = String.mk l
    rw [List.append_nil]

/-- On success, the list-to-dict conversion loop appends the name-keyed
entries in input order. -/
theorem listToDictAux_ok :
    ∀ (paths : List String) (acc r : List (String × String)),
      listToDictAux acc paths = Except.ok r →
      r = acc ++ paths.map (fun p => (pathName p, p)) := by
  intro paths
  induction paths with
  | nil =>
    intro acc r h
    injection h with h2
    simp [h2.symm]
  | cons p rest ih =>
    intro acc r h
    unfold listToDictAux at h
    split at h
    · cases h
    · have hr := ih _ _ h
      rw [hr]
      simp

/-- With pairwise-distinct bare names the conversion loop succeeds. -/
theorem listToDictAux_ok_of_nodup :
    ∀ (paths : List String) (acc : List (String × String)),
      (acc.map Prod.fst ++ paths.map pathName).Nodup →
      listToDictAux acc paths =
        Except.ok (acc ++ paths.map (fun p => (pathName p, p))) := by
  intro paths
  induction paths with
  | nil => intro acc _; simp [listToDictAux]
  | cons p rest ih =>
    intro acc h
    have hparts := List.nodup_append.mp (by simpa using h)
    have hnotin : pathName p ∉ acc.map Prod.fst := by
      intro hmem
      exact hparts.2.2 hmem (by simp)
    have hcontains : (acc.map Prod.fst).contains (pathName p) = false := by
      simpa using hnotin
    unfold listToDictAux
    rw [hcontains]
    simp only [Bool.false_eq_true, if_false]
    have h' : ((acc ++ [(pathName p, p)]).map Prod.fst ++ rest.map pathName).Nodup := by
      simp only [List.map_append, List.map_cons, List.map_nil]
      have heq : acc.map Prod.fst ++ [pathName p] ++ rest.map pathName =
          acc.map Prod.fst ++ (p :: rest).map pathName := by simp
      rw [heq]
      exact h
    have := ih _ h'
    rw [this]
    simp

/-- With a repeated bare name the conversion loop raises the duplicate
error, whatever else the arguments are. -/
theorem listToDictAux_err_of_dup :
    ∀ (paths : List String) (acc : List (String × String)),
      (acc.map Prod.fst).Nodup →
      ¬ (acc.map Prod.fst ++ paths.map pathName).Nodup →
      listToDictAux acc paths =
        Except.error "Duplicate path name in list; use dict to specify different names" := by
  intro paths
  induction paths with
  | nil =>
    intro acc h1 h2
    exact absurd (by simpa using h1) h2
  | cons p rest ih =>
    intro acc h1 h2
    unfold listToDictAux
    by_cases hc : pathName p ∈ acc.map Prod.fst
    · have hcontains : (acc.map Prod.fst).contains (pathName p) = true := by
        simpa using hc
      rw [hcontains]
      simp only [if_true]
    · have hcontains : (acc.map Prod.fst).contains (pathName p) = false := by
        simpa using hc
      rw [hcontains]
      simp only [Bool.false_eq_true, if_false]
      apply ih
      · rw [List.map_append, List.nodup_append]
        refine ⟨h1, List.nodup_singleton _, ?_⟩
        intro a ha hb
        simp at hb
        subst hb
        exact hc ha
      · intro hn
        apply h2
        have heq : acc.map Prod.fst ++ (p :: rest).map pathName =
            (acc ++ [(pathName p, p)]).map Prod.fst ++ rest.map pathName := by simp
        rw [heq]
        exact hn

/-- C9: in the list form of `from_files` each target name is the source
path's bare file name; two sources sharing a bare name raise the duplicate
error immediately, before the load script is even looked at. -/
theorem list_form_names_and_duplicates :
    (∀ (paths : List String) (ls rules : Option ScriptArg),
        ¬ (paths.map pathName).Nodup →
        Datasource.from_files (.list paths) ls rules =
          Except.error "Duplicate path name in list; use dict to specify different names")
  ∧ (∀ (paths : List String) (script : ScriptArg) (rules : Option ScriptArg),
        (paths.map pathName).Nodup →
        stagedKeys (Datasource.from_files (.list paths) (some script) rules) =
          some (paths.map (fun p =>
            Key.path ("data/" ++ datasourceName paths ++ "/" ++ pathName p)))) := by
  constructor
  · intro paths ls rules hdup
    have herr := listToDictAux_err_of_dup paths [] (by simp) (by simpa using hdup)
    have hres : resolveInputFiles (.list paths) =
        Except.error "Duplicate path name in list; use dict to specify different names" := by
      simpa [resolveInputFiles, listToDict] using herr
    unfold Datasource.from_files
    rw [hres]
  · intro paths script rules hnodup
    have hok := listToDictAux_ok_of_nodup paths [] (by simpa using hnodup)
    have hres : resolveInputFiles (.list paths) =
        Except.ok (paths.map (fun p => (pathName p, p))) := by
      simpa [resolveInputFiles, listToDict] using hok
    have hsnd : (paths.map (fun p => (pathName p, p))).map Prod.snd = paths := by
      rw [List.map_map]
      have hcomp : (Prod.snd ∘ fun p : String => (pathName p, p)) = id := rfl
      rw [hcomp, List.map_id]
    unfold Datasource.from_files
    rw [hres]
    simp only [stagedKeys, okOf, fullInputFilesOf]
    rw [hsnd]
    simp [List.map_map, Function.comp]

/-- Witness for C9: two sources named `x.ttl` in different directories are
rejected even though a load script is supplied; a single-file list stages
under its bare name. -/
theorem list_form_names_and_duplicates_witness :
    Datasource.from_files (.list ["a/x.ttl", "b/x.ttl"]) (some (ScriptArg.str "s")) none =
      Except.error "Duplicate path name in list; use dict to specify different names"
  ∧ stagedKeys (Datasource.from_files (.list ["d/y.csv"]) (some (ScriptArg.str "s")) none) =
      some (["d/y.csv"].map (fun p =>
        Key.path ("data/" ++ datasourceName ["d/y.csv"] ++ "/" ++ pathName p))) :=
  ⟨list_form_names_and_duplicates.1 ["a/x.ttl", "b/x.ttl"] (some (ScriptArg.str "s")) none
      (by decide),
   list_form_names_and_duplicates.2 ["d/y.csv"] (ScriptArg.str "s") none (by decide)⟩

/-- C10: a directory with no `load_data.rdfox` makes `load_datasource` pass
the empty *string* (not `None`) to `from_files`, so auto-generation is never
attempted and no unsupported-extension error can arise; the resolved script
is exactly the generated `dir.datasource` setup line. -/
theorem load_datasource_empty_loadscript (d : DatasourceDir)
    (h1 : d.is_dir = true) (h2 : d.loadDataText = none)
    (h3 : ((d.csvFiles ++ d.ttlFiles).map pathName).Nodup) :
    scriptOf (load_datasource d) =
      some (dirSetupLine (datasourceName (d.csvFiles ++ d.ttlFiles)) ++ "\n") := by
  unfold load_datasource
  rw [h1, h2]
  have hok := listToDictAux_ok_of_nodup (d.csvFiles ++ d.ttlFiles) [] (by simpa using h3)
  have hres : resolveInputFiles (.list (d.csvFiles ++ d.ttlFiles)) =
      Except.ok ((d.csvFiles ++ d.ttlFiles).map (fun p => (pathName p, p))) := by
    simpa [resolveInputFiles, listToDict] using hok
  have hsnd : ((d.csvFiles ++ d.ttlFiles).map (fun p => (pathName p, p))).map Prod.snd =
      d.csvFiles ++ d.ttlFiles := by
    rw [List.map_map]
    have hcomp : (Prod.snd ∘ fun p : String => (pathName p, p)) = id := rfl
    rw [hcomp, List.map_id]
  unfold Datasource.from_files
  rw [hres]
  simp only [scriptOf, okOf, scriptArgText]
  rw [hsnd]
  simp [str_append_empty]

/-- Witness for C10 at a directory holding one csv file and a `map.dlog`. -/
theorem load_datasource_empty_loadscript_witness :
    scriptOf (load_datasource ⟨true, none, some "r", ["dir/data.csv"], []⟩) =
      some (dirSetupLine (datasourceName (["dir/data.csv"] ++ [])) ++ "\n") :=
  load_datasource_empty_loadscript ⟨true, none, some "r", ["dir/data.csv"], []⟩
    rfl rfl (by decide)

/-- Containment in an appended staged-file map. -/
theorem dictContains_append (m m' : List (Key × FileSource)) (k : Key) :
    dictContains (m ++ m') k = (dictContains m k || dictContains m' k) := by
  simp [dictContains, List.any_append]

/-- A key outside the map looks up to nothing. -/
theorem dictGet_eq_none_of_not_contains (m : List (Key × FileSource)) (k : Key)
    (h : dictContains m k = false) : dictGet m k = none := by
  induction m with
  | nil => rfl
  | cons kv rest ih =>
    simp only [dictContains, List.any_cons, Bool.or_eq_false_iff] at h
    simp only [dictGet, List.find?]
    rw [h.1]
    exact ih (by simp [dictContains, h.2])

/-- Lookup in an appended map finds entries of the left part first. -/
theorem dictGet_append_left (m m' : List (Key × FileSource)) (k : Key)
    (h : dictContains m k = true) : dictGet (m ++ m') k = dictGet m k := by
  induction m with
  | nil => simp [dictContains] at h
  | cons kv rest ih =>
    simp only [dictContains, List.any_cons, Bool.or_eq_true] at h
    simp only [List.cons_append, dictGet, List.find?]
    cases hk : (kv.1 == k) with
    | true => rfl
    | false =>
      have hrest : dictContains rest k = true := by
        rcases h with h1 | h2
        · rw [hk] at h1; cases h1
        · simpa [dictContains] using h2
      simpa [dictGet] using ih hrest

/-- Lookup in an appended map falls through to the right part when the key
is absent on the left. -/
theorem dictGet_append_right (m m' : List (Key × FileSource)) (k : Key)
    (h : dictContains m k = false) : dictGet (m ++ m') k = dictGet m' k := by
  induction m with
  | nil => rfl
  | cons kv rest ih =>
    simp only [dictContains, List.any_cons, Bool.or_eq_false_iff] at h
    simp only [List.cons_append, dictGet, List.find?]
    rw [h.1]
    exact ih (by simp [dictContains, h.2])

/-- The replacement pass of `dictSet` preserves every entry's key. -/
theorem replEntry_fst (k : Key) (v : FileSource) (kv : Key × FileSource) :
    (if kv.1 == k then (k, v) else kv).1 = kv.1 := by
  cases hk : (kv.1 == k) with
  | true => simpa using (beq_iff_eq.mp hk).symm
  | false => simp

/-- The replacement pass of `dictSet` does not change which keys are
present. -/
theorem dictContains_map_repl (m : List (Key × FileSource)) (k : Key) (v : FileSource)
    (k' : Key) :
    dictContains (m.map (fun kv => if kv.1 == k then (k, v) else kv)) k' =
      dictContains m k' := by
  induction m with
  | nil => rfl
  | cons kv rest ih =>
    simp only [List.map_cons, dictContains, List.any_cons] at ih ⊢
    rw [ih, replEntry_fst]

/-- After replacement the key looks up to the new value. -/
theorem dictGet_map_repl_self :
    ∀ (m : List (Key × FileSource)) (k : Key) (v : FileSource),
      dictContains m k = true →
      dictGet (m.map (fun kv => if kv.1 == k then (k, v) else kv)) k = some v := by
  intro m k v
  induction m with
  | nil => intro h; simp [dictContains] at h
  | cons kv rest ih =>
    intro h
    cases hk : (kv.1 == k) with
    | true =>
      simp [List.map_cons, hk, dictGet, List.find?]
    | false =>
      have hrest : dictContains rest k = true := by
        simp only [dictContains, List.any_cons, hk, Bool.false_or] at h
        exact h
      have htail := ih hrest
      simp only [List.map_cons, hk, Bool.false_eq_true, if_false]
      simp only [dictGet, List.find?, hk] at htail ⊢
      exact htail

/-- The replacement pass leaves lookups of other keys unchanged. -/
theorem dictGet_map_repl_other (m : List (Key × FileSource)) (k : Key) (v : FileSource)
    (k' : Key) (h : k' ≠ k) :
    dictGet (m.map (fun kv => if kv.1 == k then (k, v) else kv)) k' = dictGet m k' := by
  induction m with
  | nil => rfl
  | cons kv rest ih =>
    by_cases hk : kv.1 = k
    · have hbeq : (kv.1 == k) = true := beq_iff_eq.mpr hk
      have hnew : (k == k') = false := beq_eq_false_iff_ne.mpr (fun heq => h heq.symm)
      have hold : (kv.1 == k') = false := by rw [hk]; exact hnew
      simp only [List.map_cons, hbeq, if_true]
      simp only [dictGet, List.find?, hnew, hold]
      simp only [dictGet, List.find?] at ih
      exact ih
    · have hbeq : (kv.1 == k) = false := beq_eq_false_iff_ne.mpr hk
      simp only [List.map_cons, hbeq, Bool.false_eq_true, if_false]
      cases hk2 : (kv.1 == k') with
      | true => simp only [dictGet, List.find?, hk2]
      | false =>
        simp only [dictGet, List.find?, hk2]
        simp only [dictGet, List.find?] at ih
        exact ih

/-- `dictSet` makes its key present. -/
theorem dictContains_set_self (m : List (Key × FileSource)) (k : Key) (v : FileSource) :
    dictContains (dictSet m k v) k = true := by
  unfold dictSet
  split
  · rename_i hc
    rw [dictContains_map_repl]
    exact hc
  · rw [dictContains_append]
    simp [dictContains]

/-- `dictSet` leaves the presence of other keys unchanged. -/
theorem dictContains_set_other (m : List (Key × FileSource)) (k : Key) (v : FileSource)
    (k' : Key) (h : k' ≠ k) : dictContains (dictSet m k v) k' = dictContains m k' := by
  unfold dictSet
  split
  · rw [dictContains_map_repl]
  · rw [dictContains_append]
    have hsingle : dictContains [(k, v)] k' = false := by
      simp only [dictContains, List.any_cons, List.any_nil, Bool.or_false]
      exact beq_eq_false_iff_ne.mpr (fun heq => h heq.symm)
    rw [hsingle, Bool.or_false]

/-- `dictSet` makes its key look up to the new value. -/
theorem dictGet_set_self (m : List (Key × FileSource)) (k : Key) (v : FileSource) :
    dictGet (dictSet m k v) k = some v := by
  unfold dictSet
  split
  · rename_i hc
    exact dictGet_map_repl_self m k v hc
  · rename_i hc
    rw [dictGet_append_right _ _ _ (by simpa using hc)]
    simp [dictGet, List.find?]

/-- `dictSet` leaves the lookup of other keys unchanged. -/
theorem dictGet_set_other (m : List (Key × FileSource)) (k : Key) (v : FileSource)
    (k' : Key) (h : k' ≠ k) : dictGet (dictSet m k v) k' = dictGet m k' := by
  unfold dictSet
  split
  · exact dictGet_map_repl_other m k v k' h
  · by_cases hmk : dictContains m k' = true
    · rw [dictGet_append_left _ _ _ hmk]
    · have hmf : dictContains m k' = false := by simpa using hmk
      have hkk : (k == k') = false := beq_eq_false_iff_ne.mpr (fun heq => h heq.symm)
      rw [dictGet_append_right _ _ _ hmf, dictGet_eq_none_of_not_contains _ _ hmf]
      simp [dictGet, List.find?, hkk]

/-- A successful inner merge loop appends exactly the given entries; their
targets were all fresh and are pairwise distinct. -/
theorem addFilesOf_ok_strong :
    ∀ (files m m' : List (Key × FileSource)),
      addFilesOf m files = Except.ok m' →
      m' = m ++ files
      ∧ (∀ kv ∈ files, dictContains m kv.1 = false)
      ∧ (files.map Prod.fst).Nodup := by
  intro files
  induction files with
  | nil =>
    intro m m' h
    injection h with h2
    exact ⟨by simp [h2.symm], by simp, by simp⟩
  | cons kv rest ih =>
    intro m m' h
    simp only [addFilesOf] at h
    cases haddone : addOneFile m kv with
    | error e => rw [haddone] at h; cases h
    | ok m2 =>
      rw [haddone] at h
      unfold addOneFile at haddone
      split at haddone
      · cases haddone
      · rename_i hc
        have hcf : dictContains m kv.1 = false := by simpa using hc
        injection haddone with hm2
        have hset : dictSet m kv.1 kv.2 = m ++ [kv] := by
          simp [dictSet, hcf]
        rw [← hm2, hset] at h
        obtain ⟨h1, h2, h3⟩ := ih _ _ h
        refine ⟨by rw [h1]; simp, ?_, ?_⟩
        · intro kv' hkv'
          rcases List.mem_cons.mp hkv' with heq | hmem
          · rw [heq]; exact hcf
          · have hfr := h2 kv' hmem
            rw [dictContains_append] at hfr
            exact (Bool.or_eq_false_iff.mp hfr).1
        · rw [List.map_cons, List.nodup_cons]
          refine ⟨?_, h3⟩
          intro hmem
          rw [List.mem_map] at hmem
          obtain ⟨kv', hkv', hfst⟩ := hmem
          have hfr := h2 kv' hkv'
          rw [dictContains_append] at hfr
          have hsingle := (Bool.or_eq_false_iff.mp hfr).2
          simp only [dictContains, List.any_cons, List.any_nil, Bool.or_false] at hsingle
          rw [beq_eq_false_iff_ne] at hsingle
          exact hsingle hfst.symm

/-- The inner merge loop raises as soon as one of the entries' targets is
already present. -/
theorem addFilesOf_err :
    ∀ (files m : List (Key × FileSource)),
      (∃ kv ∈ files, dictContains m kv.1 = true) →
      okOf (addFilesOf m files) = none := by
  intro files
  induction files with
  | nil =>
    intro m hex
    obtain ⟨kv, hkv, _⟩ := hex
    simp at hkv
  | cons kv0 rest ih =>
    intro m hex
    obtain ⟨kv, hkvmem, hkvc⟩ := hex
    simp only [addFilesOf]
    cases haddone : addOneFile m kv0 with
    | error e => rfl
    | ok m2 =>
      unfold addOneFile at haddone
      split at haddone
      · cases haddone
      · rename_i hc
        injection haddone with hm2
        rw [← hm2]
        apply ih
        rcases List.mem_cons.mp hkvmem with heq | hmem
        · rw [heq] at hkvc
          exact absurd hkvc (by simpa using hc)
        · refine ⟨kv, hmem, ?_⟩
          by_cases hkk : kv.1 = kv0.1
          · rw [hkk]
            exact dictContains_set_self m kv0.1 kv0.2
          · rw [dictContains_set_other m kv0.1 kv0.2 kv.1 hkk]
            exact hkvc

/-- A successful outer merge loop only ever appends entries to the map. -/
theorem addAll_ok_ext :
    ∀ (dss : List Datasource) (m m' : List (Key × FileSource)),
      addAllDatasources m dss = Except.ok m' → ∃ ext, m' = m ++ ext := by
  intro dss
  induction dss with
  | nil =>
    intro m m' h
    injection h with h2
    exact ⟨[], by simp [h2.symm]⟩
  | cons ds rest ih =>
    intro m m' h
    simp only [addAllDatasources] at h
    cases hf : addFilesOf m ds.input_files with
    | error e => rw [hf] at h; cases h
    | ok m2 =>
      rw [hf] at h
      obtain ⟨heq, _, _⟩ := addFilesOf_ok_strong _ _ _ hf
      obtain ⟨ext, hext⟩ := ih _ _ h
      exact ⟨ds.input_files ++ ext, by rw [hext, heq, List.append_assoc]⟩

/-- A successful two-datasource merge appends both file lists in order, and
records that every target was fresh at its point of insertion. -/
theorem addAll_two_ok (m m' : List (Key × FileSource)) (A B : Datasource)
    (h : addAllDatasources m [A, B] = Except.ok m') :
    m' = m ++ A.input_files ++ B.input_files
    ∧ (∀ kv ∈ A.input_files, dictContains m kv.1 = false)
    ∧ (∀ kv ∈ B.input_files, dictContains (m ++ A.input_files) kv.1 = false) := by
  simp only [addAllDatasources] at h
  cases hA : addFilesOf m A.input_files with
  | error e => simp only [hA] at h; cases h
  | ok m1 =>
    simp only [hA] at h
    cases hB : addFilesOf m1 B.input_files with
    | error e => simp only [hB] at h; cases h
    | ok m2 =>
      simp only [hB] at h
      injection h with h2
      obtain ⟨e1, f1, _⟩ := addFilesOf_ok_strong _ _ _ hA
      obtain ⟨e2, f2, _⟩ := addFilesOf_ok_strong _ _ _ hB
      subst e1
      refine ⟨?_, f1, f2⟩
      rw [← h2, e2]

/-- A present key is witnessed by an entry. -/
theorem exists_entry_of_contains (m : List (Key × FileSource)) (k : Key)
    (h : dictContains m k = true) : ∃ kv ∈ m, kv.1 = k := by
  simp only [dictContains, List.any_eq_true] at h
  obtain ⟨kv, hkv, hbeq⟩ := h
  exact ⟨kv, hkv, beq_iff_eq.mp hbeq⟩

/-- The two accumulator assignments leave the presence of other keys as in
the base map. -/
theorem m0_contains (base : List (Key × FileSource)) (k : Key) (vl vr : FileSource)
    (hk1 : k ≠ loadDataKey) (hk2 : k ≠ mapDlogKey) :
    dictContains (dictSet (dictSet base loadDataKey vl) mapDlogKey vr) k =
      dictContains base k := by
  rw [dictContains_set_other _ _ _ _ hk2, dictContains_set_other _ _ _ _ hk1]

/-- The two accumulator assignments leave the lookup of other keys as in
the base map. -/
theorem m0_get (base : List (Key × FileSource)) (k : Key) (vl vr : FileSource)
    (hk1 : k ≠ loadDataKey) (hk2 : k ≠ mapDlogKey) :
    dictGet (dictSet (dictSet base loadDataKey vl) mapDlogKey vr) k =
      dictGet base k := by
  rw [dictGet_set_other _ _ _ _ hk2, dictGet_set_other _ _ _ _ hk1]

/-- Merging a single datasource fails when one of its targets is already
present in the prepared map. -/
theorem addAll_single_err (m0 : List (Key × FileSource)) (A : Datasource)
    (h : ∃ kv ∈ A.input_files, dictContains m0 kv.1 = true) :
    okOf (addAllDatasources m0 [A]) = none := by
  simp only [addAllDatasources]
  cases hf : addFilesOf m0 A.input_files with
  | error e => rfl
  | ok m2 =>
    have herr := addFilesOf_err A.input_files m0 h
    rw [hf] at herr
    simp [okOf] at herr

/-- Merging two datasources fails when they share a target. -/
theorem addAll_pair_err (m0 : List (Key × FileSource)) (A B : Datasource) (k : Key)
    (hA : dictContains A.input_files k = true)
    (hB : dictContains B.input_files k = true) :
    okOf (addAllDatasources m0 [A, B]) = none := by
  have hunfold : addAllDatasources m0 [A, B] =
      (match addFilesOf m0 A.input_files with
       | Except.error e => Except.error e
       | Except.ok m2 => addAllDatasources m2 [B]) := rfl
  rw [hunfold]
  cases hf : addFilesOf m0 A.input_files with
  | error e => rfl
  | ok m1 =>
    obtain ⟨e1, _, _⟩ := addFilesOf_ok_strong _ _ _ hf
    have hm1 : dictContains m1 k = true := by
      rw [e1, dictContains_append, hA]
      simp
    obtain ⟨kv, hkvm, hkvk⟩ := exists_entry_of_contains B.input_files k hB
    show okOf (addAllDatasources m1 [B]) = none
    exact addAll_single_err m1 B ⟨kv, hkvm, by rw [hkvk]; exact hm1⟩

/-- C5: the two accumulator targets of the merged staged-file map receive
the newline-joined texts of every datasource in supply order; a collision
of any other target with an already-present entry — a standard asset or an
earlier datasource — raises the hard duplicate-entry error; and merging
`[A, B]` versus `[B, A]` yields maps that agree at every non-accumulator
key. -/
theorem merge_accumulators_and_collisions :
    (∀ (base : List (Key × FileSource)) (dss : List Datasource)
        (m : List (Key × FileSource)),
        add_datasources_to_input_files base dss = Except.ok m →
        dictGet m loadDataKey =
          some (FileSource.mem
            (String.intercalate "\n" (dss.map Datasource.load_data_script)))
        ∧ dictGet m mapDlogKey =
          some (FileSource.mem (String.intercalate "\n" (dss.map Datasource.rules))))
  ∧ (∀ (base : List (Key × FileSource)) (A : Datasource) (k : Key),
        dictContains base k = true → k ≠ loadDataKey → k ≠ mapDlogKey →
        dictContains A.input_files k = true →
        okOf (add_datasources_to_input_files base [A]) = none)
  ∧ (∀ (base : List (Key × FileSource)) (A B : Datasource) (k : Key),
        dictContains A.input_files k = true →
        dictContains B.input_files k = true →
        okOf (add_datasources_to_input_files base [A, B]) = none)
  ∧ (∀ (base : List (Key × FileSource)) (A B : Datasource)
        (mAB mBA : List (Key × FileSource)),
        add_datasources_to_input_files base [A, B] = Except.ok mAB →
        add_datasources_to_input_files base [B, A] = Except.ok mBA →
        ∀ k : Key, k ≠ loadDataKey → k ≠ mapDlogKey →
          dictGet mAB k = dictGet mBA k) := by
  have hld_ne_md : loadDataKey ≠ mapDlogKey := by decide
  refine ⟨?_, ?_, ?_, ?_⟩
  · intro base dss m h
    unfold add_datasources_to_input_files at h
    obtain ⟨ext, hext⟩ := addAll_ok_ext _ _ _ h
    subst hext
    constructor
    · rw [dictGet_append_left]
      · rw [dictGet_set_other _ _ _ _ hld_ne_md, dictGet_set_self]
      · rw [dictContains_set_other _ _ _ _ hld_ne_md]
        exact dictContains_set_self _ _ _
    · rw [dictGet_append_left]
      · rw [dictGet_set_self]
      · exact dictContains_set_self _ _ _
  · intro base A k hbase hk1 hk2 hmem
    unfold add_datasources_to_input_files
    apply addAll_single_err
    obtain ⟨kv, hkvm, hkvk⟩ := exists_entry_of_contains A.input_files k hmem
    refine ⟨kv, hkvm, ?_⟩
    rw [hkvk, m0_contains base k _ _ hk1 hk2]
    exact hbase
  · intro base A B k hA hB
    unfold add_datasources_to_input_files
    exact addAll_pair_err _ A B k hA hB
  · intro base A B mAB mBA hAB hBA k hk1 hk2
    unfold add_datasources_to_input_files at hAB hBA
    obtain ⟨eAB, fA_AB, fB_AB⟩ := addAll_two_ok _ _ _ _ hAB
    obtain ⟨eBA, fB_BA, fA_BA⟩ := addAll_two_ok _ _ _ _ hBA
    subst eAB
    subst eBA
    rw [List.append_assoc, List.append_assoc]
    by_cases hbase : dictContains base k = true
    · have hces : ∀ vl vr : FileSource,
          dictContains (dictSet (dictSet base loadDataKey vl) mapDlogKey vr) k = true := by
        intro vl vr
        rw [m0_contains base k vl vr hk1 hk2]
        exact hbase
      rw [dictGet_append_left _ _ _ (hces _ _), dictGet_append_left _ _ _ (hces _ _),
        m0_get base k _ _ hk1 hk2, m0_get base k _ _ hk1 hk2]
    · have hbasef : dictContains base k = false := by simpa using hbase
      have hcf : ∀ vl vr : FileSource,
          dictContains (dictSet (dictSet base loadDataKey vl) mapDlogKey vr) k = false := by
        intro vl vr
        rw [m0_contains base k vl vr hk1 hk2]
        exact hbasef
      rw [dictGet_append_right _ _ _ (hcf _ _), dictGet_append_right _ _ _ (hcf _ _)]
      by_cases hA : dictContains A.input_files k = true
      · obtain ⟨kv, hkvm, hkvk⟩ := exists_entry_of_contains _ _ hA
        have hfr := fA_BA kv hkvm
        rw [dictContains_append, hkvk] at hfr
        have hBf : dictContains B.input_files k = false :=
          (Bool.or_eq_false_iff.mp hfr).2
        rw [dictGet_append_left _ _ _ hA, dictGet_append_right _ _ _ hBf]
      · have hAf : dictContains A.input_files k = false := by simpa using hA
        rw [dictGet_append_right _ _ _ hAf]
        by_cases hB : dictContains B.input_files k = true
        · rw [dictGet_append_left _ _ _ hB]
        · have hBf : dictContains B.input_files k = false := by simpa using hB
          rw [dictGet_append_right _ _ _ hBf,
            dictGet_eq_none_of_not_contains _ _ hAf,
            dictGet_eq_none_of_not_contains _ _ hBf]

/-- Witness for C5: two one-file datasources merged over the standard
assets in both orders, and a datasource whose target collides with a
standard asset. -/
theorem merge_accumulators_and_collisions_witness :
    dictGet (mOf (add_datasources_to_input_files (standard_input_files "S")
        [⟨[(Key.path "data/A/x.ttl", FileSource.path "sA/x.ttl")], "loadA", "rulesA"⟩,
         ⟨[(Key.path "data/B/y.ttl", FileSource.path "sB/y.ttl")], "loadB", "rulesB"⟩]))
      loadDataKey =
      some (FileSource.mem (String.intercalate "\n"
        ([(⟨[(Key.path "data/A/x.ttl", FileSource.path "sA/x.ttl")], "loadA", "rulesA"⟩ : Datasource),
          ⟨[(Key.path "data/B/y.ttl", FileSource.path "sB/y.ttl")], "loadB", "rulesB"⟩].map
          Datasource.load_data_script)))
  ∧ okOf (add_datasources_to_input_files (standard_input_files "S")
        [⟨[(Key.str "data/probs.fss", FileSource.path "dup")], "loadC", "rulesC"⟩]) = none
  ∧ okOf (add_datasources_to_input_files (standard_input_files "S")
        [⟨[(Key.path "data/A/x.ttl", FileSource.path "sA/x.ttl")], "loadA", "rulesA"⟩,
         ⟨[(Key.path "data/A/x.ttl", FileSource.path "sA/x.ttl")], "loadA", "rulesA"⟩]) = none
  ∧ dictGet (mOf (add_datasources_to_input_files (standard_input_files "S")
        [⟨[(Key.path "data/A/x.ttl", FileSource.path "sA/x.ttl")], "loadA", "rulesA"⟩,
         ⟨[(Key.path "data/B/y.ttl", FileSource.path "sB/y.ttl")], "loadB", "rulesB"⟩]))
      (Key.path "data/A/x.ttl") =
    dictGet (mOf (add_datasources_to_input_files (standard_input_files "S")
        [⟨[(Key.path "data/B/y.ttl", FileSource.path "sB/y.ttl")], "loadB", "rulesB"⟩,
         ⟨[(Key.path "data/A/x.ttl", FileSource.path "sA/x.ttl")], "loadA", "rulesA"⟩]))
      (Key.path "data/A/x.ttl") :=
  ⟨(merge_accumulators_and_collisions.1 (standard_input_files "S")
      [⟨[(Key.path "data/A/x.ttl", FileSource.path "sA/x.ttl")], "loadA", "rulesA"⟩,
       ⟨[(Key.path "data/B/y.ttl", FileSource.path "sB/y.ttl")], "loadB", "rulesB"⟩]
      (mOf (add_datasources_to_input_files (standard_input_files "S")
        [⟨[(Key.path "data/A/x.ttl", FileSource.path "sA/x.ttl")], "loadA", "rulesA"⟩,
         ⟨[(Key.path "data/B/y.ttl", FileSource.path "sB/y.ttl")], "loadB", "rulesB"⟩]))
      (by rfl)).1,
   merge_accumulators_and_collisions.2.1 (standard_input_files "S")
      ⟨[(Key.str "data/probs.fss", FileSource.path "dup")], "loadC", "rulesC"⟩
      (Key.str "data/probs.fss") (by decide) (by decide) (by decide) (by decide),
   merge_accumulators_and_collisions.2.2.1 (standard_input_files "S")
      ⟨[(Key.path "data/A/x.ttl", FileSource.path "sA/x.ttl")], "loadA", "rulesA"⟩
      ⟨[(Key.path "data/A/x.ttl", FileSource.path "sA/x.ttl")], "loadA", "rulesA"⟩
      (Key.path "data/A/x.ttl") (by decide) (by decide),
   merge_accumulators_and_collisions.2.2.2 (standard_input_files "S")
      ⟨[(Key.path "data/A/x.ttl", FileSource.path "sA/x.ttl")], "loadA", "rulesA"⟩
      ⟨[(Key.path "data/B/y.ttl", FileSource.path "sB/y.ttl")], "loadB", "rulesB"⟩
      (mOf (add_datasources_to_input_files (standard_input_files "S")
        [⟨[(Key.path "data/A/x.ttl", FileSource.path "sA/x.ttl")], "loadA", "rulesA"⟩,
         ⟨[(Key.path "data/B/y.ttl", FileSource.path "sB/y.ttl")], "loadB", "rulesB"⟩]))
      (mOf (add_datasources_to_input_files (standard_input_files "S")
        [⟨[(Key.path "data/B/y.ttl", FileSource.path "sB/y.ttl")], "loadB", "rulesB"⟩,
         ⟨[(Key.path "data/A/x.ttl", FileSource.path "sA/x.ttl")], "loadA", "rulesA"⟩]))
      (by rfl) (by rfl) (Key.path "data/A/x.ttl") (by decide) (by decide)⟩

end ProbsRunner
